import Mathlib

/-!
Shallow embedding of `page_pfp.py` (the PAGE PFP download-relocation
automation): the coordinator state owned by the `PagePFP` instance, the three
hotkey callbacks, the two blocking wait primitives
(`_wait_for_user_paste_or_skip` and `_wait_for_new_png_download`), the file
readiness probe (`_wait_until_file_is_ready`), the collision-avoiding
relocation (`move_and_rename_file`), the cleanup structure of `run`, and the
snapshot handling of `run`'s main loop.

Listener callbacks run on OS input threads while the workflow thread polls;
the embedding quotients these interleavings at poll granularity: the batch of
callbacks that fires between two consecutive polls of a wait loop is applied
to the coordinator state before the loop's per-iteration checks run.  Wall
clock readings are supplied by the environment as natural numbers, and the
filesystem (directory listings, modification times, readiness of a file) is
likewise supplied by the environment at the points where the source reads it.
-/

namespace PagePFP

/-- Coordinator state of a `PagePFP` instance: the three `threading.Event`
flags (`_paste_event`, `_skip_prompt_event`, `_skip_wait_download_event`) and
`_expected_clipboard_text`. -/
structure CoordState where
  pasteEvent : Bool
  skipPromptEvent : Bool
  skipWaitDownloadEvent : Bool
  expectedClipboardText : Option String
deriving DecidableEq, Repr

/-- State of a freshly constructed `PagePFP` instance: the `threading.Event`
objects start cleared and `_expected_clipboard_text` starts as `None`. -/
def initCoordState : CoordState :=
  { pasteEvent := false
    skipPromptEvent := false
    skipWaitDownloadEvent := false
    expectedClipboardText := none }

/-- `_on_paste_hotkey` (Ctrl+V handler).  Reads the clipboard; if no expected
text is active it returns at once; if the clipboard equals the expected text
it sets `_paste_event`; otherwise it prints a warning.  The second component
records whether the warning was printed. -/
def on_paste_hotkey (clipboard : String) (s : CoordState) : CoordState × Bool :=
  match s.expectedClipboardText with
  | none => (s, false)
  | some expected =>
      if clipboard = expected then ({ s with pasteEvent := true }, false)
      else (s, true)

/-- `_on_skip_prompt_hotkey` (Ctrl+R handler): sets `_skip_prompt_event`. -/
def on_skip_prompt_hotkey (s : CoordState) : CoordState :=
  { s with skipPromptEvent := true }

/-- `_on_skip_wait_download_hotkey` (Ctrl+Shift+C handler): sets
`_skip_wait_download_event`. -/
def on_skip_wait_download_hotkey (s : CoordState) : CoordState :=
  { s with skipWaitDownloadEvent := true }

/-- One asynchronous hotkey firing, tagged with the clipboard content the
paste handler would observe at that moment. -/
inductive HotkeyEvent where
  | pasteKey (clipboard : String)
  | skipPromptKey
  | skipDownloadKey
deriving DecidableEq, Repr

/-- Effect of one hotkey firing on the coordinator state (warnings are
dropped; they do not touch the state). -/
def stepCallback (e : HotkeyEvent) (s : CoordState) : CoordState :=
  match e with
  | HotkeyEvent.pasteKey c => (on_paste_hotkey c s).1
  | HotkeyEvent.skipPromptKey => on_skip_prompt_hotkey s
  | HotkeyEvent.skipDownloadKey => on_skip_wait_download_hotkey s

/-- Effect of a batch of hotkey firings, in order. -/
def applyEvents (es : List HotkeyEvent) (s : CoordState) : CoordState :=
  es.foldl (fun s e => stepCallback e s) s

/-- The check `timeout is not None and (time.time() - start) > timeout`,
with elapsed time supplied in abstract clock units. -/
def timeoutExpired (timeout : Option Nat) (elapsed : Nat) : Bool :=
  match timeout with
  | none => false
  | some t => decide (t < elapsed)

/-- Environment of one iteration of `_wait_for_user_paste_or_skip`'s polling
loop: the hotkey callbacks that fired since the previous poll and the elapsed
time the iteration's timeout check would observe. -/
structure ConfIter where
  events : List HotkeyEvent
  elapsed : Nat
deriving DecidableEq, Repr

/-- The `while True` loop of `_wait_for_user_paste_or_skip`: check
`_paste_event`, then `_skip_prompt_event`, then the timeout, each exit path
clearing `_expected_clipboard_text`; otherwise sleep and poll again.  Returns
`none` when the supplied environment trace is exhausted with the loop still
running. -/
def confLoop (timeout : Option Nat) (s : CoordState) :
    List ConfIter → Option (Bool × CoordState)
  | [] => none
  | it :: rest =>
      let s1 := applyEvents it.events s
      if s1.pasteEvent then some (true, { s1 with expectedClipboardText := none })
      else if s1.skipPromptEvent then
        some (false, { s1 with expectedClipboardText := none })
      else if timeoutExpired timeout it.elapsed then
        some (false, { s1 with expectedClipboardText := none })
      else confLoop timeout s1 rest

/-- `_wait_for_user_paste_or_skip`: store the expected clipboard text, clear
`_paste_event` and `_skip_prompt_event`, then run the polling loop. -/
def wait_for_user_paste_or_skip (expectedText : String) (timeout : Option Nat)
    (s : CoordState) (iters : List ConfIter) : Option (Bool × CoordState) :=
  confLoop timeout
    { s with
      expectedClipboardText := some expectedText
      pasteEvent := false
      skipPromptEvent := false }
    iters

/-! ### The filesystem side: download events and the download wait loop -/

/-- A filesystem entry as the program observes it: its `name` (final path
component) and its modification time `st_mtime`, in abstract clock units. -/
structure FsPath where
  name : String
  mtime : Nat
deriving DecidableEq, Repr

/-- A `DownloadEvent` as pushed by `DownloadsHandler.on_created`: the created
path and its `filename`.  The handler always builds it as
`DownloadEvent(filename=created.name, path=created)`. -/
structure DownloadEvent where
  filename : String
  path : FsPath
deriving DecidableEq, Repr

/-- `DownloadsHandler.on_created` for a regular-file creation: the event it
enqueues (directory events are dropped before this point). -/
def on_created (created : FsPath) : DownloadEvent :=
  { filename := created.name, path := created }

/-- Outcome of one `self._downloads_q.get(timeout=0.1)` poll: either the
queue was empty (with the elapsed time the subsequent timeout check would
observe) or it yielded the next event. -/
inductive QueuePoll where
  | empty (elapsed : Nat)
  | item (e : DownloadEvent)
deriving DecidableEq, Repr

/-- Environment of one iteration of `_wait_for_new_png_download`'s loop:
the hotkey callbacks that fired since the previous iteration, the queue poll
outcome, the parent-directory contents `evt.path.parent.glob` would see if
the unstable branch re-lists, and the two possible readiness-probe results
(`readyLatest` for the re-listed candidate, `readyDirect` for the event's own
path). -/
structure DlIter where
  events : List HotkeyEvent
  poll : QueuePoll
  listing : List FsPath
  readyLatest : Bool
  readyDirect : Bool
deriving DecidableEq, Repr

/-- Python's `str.lower()`, character by character (the filenames at play are
ASCII, where this agrees with Unicode lowercasing). -/
def strLower (s : String) : String :=
  String.mk (s.data.map Char.toLower)

/-- Python's `str.endswith(suffix)`. -/
def strEndsWith (s suffix : String) : Bool :=
  List.isSuffixOf suffix.data s.data

/-- Python's `s[:-n]` (drop the last `n` characters). -/
def strDropRight (s : String) (n : Nat) : String :=
  String.mk (s.data.take (s.data.length - n))

/-- One character of the class `[A-Za-z0-9]`. -/
def isAsciiAlnum (c : Char) : Bool :=
  (decide ('A' ≤ c) && decide (c ≤ 'Z')) ||
  (decide ('a' ≤ c) && decide (c ≤ 'z')) ||
  (decide ('0' ≤ c) && decide (c ≤ '9'))

/-- `re.match(r"^[A-Za-z0-9]{6,12}\.png$", filename)`: the whole filename is
six to twelve alphanumeric characters followed by the literal `.png`. -/
def matchesTempPngPattern (fn : String) : Bool :=
  strEndsWith fn ".png" &&
    (decide (6 ≤ (strDropRight fn 4).length) &&
      decide ((strDropRight fn 4).length ≤ 12) &&
      (strDropRight fn 4).data.all isAsciiAlnum)

/-- The instability test of `_wait_for_new_png_download`:
`len(evt.filename) < 8 or re.match(r"^[A-Za-z0-9]{6,12}\.png$", evt.filename)`. -/
def isUnstableName (fn : String) : Bool :=
  decide (fn.length < 8) || matchesTempPngPattern fn

/-- `evt.path.parent.glob("*.png")` over a directory listing.  The program
targets Windows, where `pathlib` glob matching is case-insensitive, so a
name matches `*.png` when its lowercasing ends in `.png`. -/
def globPng (listing : List FsPath) : List FsPath :=
  listing.filter (fun p => strEndsWith (strLower p.name) ".png")

/-- Python's `max(candidates, key=lambda p: p.stat().st_mtime)`: the first
element attaining the maximal modification time (later elements replace the
running maximum only when strictly greater). -/
def pyMaxByMtime : List FsPath → Option FsPath
  | [] => none
  | p :: ps => some (ps.foldl (fun best q => if best.mtime < q.mtime then q else best) p)

/-- The unstable-name branch of `_wait_for_new_png_download`, after the ~1s
delay: given `max(candidates, ...)` (or `None` when `candidates` is empty),
return the newest candidate when the readiness probe accepts it, otherwise
fall through to the next loop iteration. -/
def dlStepUnstable (it : DlIter) : Option FsPath → Option (Option FsPath)
  | some latest => if it.readyLatest then some (some latest) else none
  | none => none

/-- The part of `_wait_for_new_png_download`'s loop body that handles the
outcome of one queue poll: the `queue.Empty` timeout check, the `.png` and
snapshot filters, the instability heuristic, and the direct readiness
probe. -/
def dlStepPoll (snapshot : List String) (timeout : Option Nat) (it : DlIter) :
    QueuePoll → Option (Option FsPath)
  | QueuePoll.empty elapsed =>
      if timeoutExpired timeout elapsed then some none else none
  | QueuePoll.item evt =>
      if ¬ (strEndsWith (strLower evt.filename) ".png" = true) then none
      else if evt.filename ∈ snapshot then none
      else if isUnstableName evt.filename then
        dlStepUnstable it (pyMaxByMtime
          ((globPng it.listing).filter (fun p => decide (p.name ∉ snapshot))))
      else if it.readyDirect then some (some evt.path) else none

/-- One iteration of `_wait_for_new_png_download`'s `while True` body, run in
coordinator state `s1`: `some r` when the body executes a `return r`
(`some none` for the skip/timeout exits, `some (some path)` for a delivered
file), `none` when it falls through to the next iteration (`continue`, a
filtered-out event, a non-ready file, or an empty re-listing). -/
def dlStep (snapshot : List String) (timeout : Option Nat) (it : DlIter)
    (s1 : CoordState) : Option (Option FsPath) :=
  if s1.skipWaitDownloadEvent then some none
  else dlStepPoll snapshot timeout it it.poll

/-- The `while True` loop of `_wait_for_new_png_download`: check
`_skip_wait_download_event`; poll the queue (on empty, check the overall
timeout); filter out non-`.png` filenames and filenames in the snapshot;
on an unstable-looking name, re-list the directory, take the newest `.png`
absent from the snapshot and return it only when ready; otherwise probe the
event's path directly.  Returns `none` when the environment trace is
exhausted with the loop still running. -/
def dlLoop (snapshot : List String) (timeout : Option Nat) (s : CoordState) :
    List DlIter → Option (Option FsPath × CoordState)
  | [] => none
  | it :: rest =>
      match dlStep snapshot timeout it (applyEvents it.events s) with
      | some r => some (r, applyEvents it.events s)
      | none => dlLoop snapshot timeout (applyEvents it.events s) rest

/-- `_wait_for_new_png_download`: clear `_skip_wait_download_event`, then run
the polling loop. -/
def wait_for_new_png_download (snapshot : List String) (timeout : Option Nat)
    (s : CoordState) (iters : List DlIter) : Option (Option FsPath × CoordState) :=
  dlLoop snapshot timeout { s with skipWaitDownloadEvent := false } iters

/-! ### The readiness probe -/

/-- One iteration of `_wait_until_file_is_ready`'s loop, as the filesystem
presents it: the path no longer exists, the `open(path, "rb")` succeeded, or
the open raised `PermissionError`/`OSError` (with the elapsed time the
subsequent timeout check would observe). -/
inductive ProbeObs where
  | missing
  | openOk
  | openErr (elapsed : Nat)
deriving DecidableEq, Repr

/-- `_wait_until_file_is_ready(path, max_wait)`: poll until the path is gone
(not ready), the open succeeds (ready), or a failed open is seen after more
than `max_wait` elapsed (not ready).  Returns `none` when the observation
trace is exhausted with the loop still running. -/
def wait_until_file_is_ready (maxWait : Nat) : List ProbeObs → Option Bool
  | [] => none
  | ProbeObs.missing :: _ => some false
  | ProbeObs.openOk :: _ => some true
  | ProbeObs.openErr elapsed :: rest =>
      if maxWait < elapsed then some false
      else wait_until_file_is_ready maxWait rest

/-! ### Snapshot handling in `run`'s main loop -/

/-- Environment of one item of `run`'s main loop: the abstracted outcomes of
the two wait steps, the live downloads-directory listing at the instant the
download wait begins (what an "immediately before the step" capture would
see), the listing `os.listdir` returns at the post-step refresh, and whether
`move_and_rename_file` reported success. -/
structure ItemEnv where
  confirmed : Bool
  dlResult : Option FsPath
  listingAtDlStart : List String
  listingAfterDl : List String
  moveOk : Bool
deriving DecidableEq, Repr

/-- What one item's processing recorded: the snapshot value passed to its
download wait (`none` when the item was skipped at the prompt, so no download
wait ran) and the value of `original_snapshot` after the item. -/
structure ItemRecord where
  snapshotPassed : Option (List String)
  snapshotAfter : List String
deriving DecidableEq, Repr

/-- One iteration of `run`'s first `for` loop, restricted to its snapshot
handling: on a skipped prompt, `continue` without touching the snapshot; on
confirmation, pass the current `original_snapshot` to
`_wait_for_new_png_download` and afterwards — whether it returned `None`
(line 289) or a path that was then moved (line 293) — reassign
`original_snapshot` from the fresh directory listing. -/
def runItem (snap : List String) (env : ItemEnv) : ItemRecord × List String :=
  if ¬ env.confirmed then
    ({ snapshotPassed := none, snapshotAfter := snap }, snap)
  else
    match env.dlResult with
    | none =>
        ({ snapshotPassed := some snap, snapshotAfter := env.listingAfterDl },
          env.listingAfterDl)
    | some _ =>
        ({ snapshotPassed := some snap, snapshotAfter := env.listingAfterDl },
          env.listingAfterDl)

/-- `run`'s first `for` loop over the work items, threading
`original_snapshot` (initially the listing captured at run start, before the
watcher starts and before any item is processed). -/
def runMainLoop (snap : List String) : List ItemEnv → List ItemRecord × List String
  | [] => ([], snap)
  | env :: envs =>
      let step := runItem snap env
      let rest := runMainLoop step.2 envs
      (step.1 :: rest.1, rest.2)

/-! ### Resource cleanup in `run` -/

/-- The run-scoped OS resources: whether a watchdog `Observer` is running
(`_observer is not None`) and whether the `keyboard.add_hotkey` registrations
made by `_register_hotkeys` are in effect. -/
structure ResourceState where
  observerActive : Bool
  hotkeysActive : Bool
deriving DecidableEq, Repr

/-- `_register_hotkeys`, called once from `__init__`: registers the three
global hotkeys.  No method of the program ever unregisters them. -/
def register_hotkeys (r : ResourceState) : ResourceState :=
  { r with hotkeysActive := true }

/-- `stop_downloads_watcher`: if an observer is running, stop it, join it and
drop the reference; otherwise do nothing. -/
def stop_downloads_watcher (r : ResourceState) : ResourceState :=
  if r.observerActive then { r with observerActive := false } else r

/-- How `run` terminated: the loop body completed normally, an exception
escaped an item, or an external interruption (e.g. `KeyboardInterrupt`)
unwound through it. -/
inductive RunTermination where
  | normal
  | itemError
  | interrupted
deriving DecidableEq, Repr

/-- The `finally:` block of `run`, which Python executes on every
termination path.  Its body is exactly `self.stop_downloads_watcher()`. -/
def runCleanup (t : RunTermination) (r : ResourceState) : ResourceState :=
  stop_downloads_watcher r

/-! ### `move_and_rename_file`: the destination-name search -/

/-- The destination names `move_and_rename_file` tries, in order: first
`f"{target_name}.png"`, then `f"{target_name} {counter}.png"` for
`counter = 1, 2, ...`. -/
def candName (targetName : String) : Nat → String
  | 0 => targetName ++ ".png"
  | Nat.succ k => targetName ++ " " ++ Nat.repr (k + 1) ++ ".png"

/-- The `while dest.exists()` loop of `move_and_rename_file`, with explicit
fuel.  `moveLoop_spec` shows fuel `existing.length + 1` always finds a free
name, so the fuel cutoff (which the Python loop does not have) is never
reached. -/
def moveLoop (existing : List String) (targetName : String) : Nat → Nat → String
  | 0, counter => candName targetName counter
  | fuel + 1, counter =>
      if candName targetName counter ∈ existing then
        moveLoop existing targetName fuel (counter + 1)
      else candName targetName counter

/-- `move_and_rename_file`, restricted to its naming decision: given the set
of names already present in `images_dir` (the successive `dest.exists()`
answers) and `target_name`, the name the file is renamed to. -/
def move_and_rename_file (existing : List String) (targetName : String) : String :=
  moveLoop existing targetName (existing.length + 1) 0

/-- A sequence of `move_and_rename_file` calls as `run` performs them: each
successful `downloaded_path.rename(dest)` adds `dest` to the destination
directory.  Returns the destination names in order and the final directory
contents. -/
def placeAll (existing : List String) : List String → List String × List String
  | [] => ([], existing)
  | t :: ts =>
      (move_and_rename_file existing t ::
          (placeAll (move_and_rename_file existing t :: existing) ts).1,
        (placeAll (move_and_rename_file existing t :: existing) ts).2)

/-! ## Facts about the callbacks -/

theorem stepCallback_expected (e : HotkeyEvent) (s : CoordState) :
    (stepCallback e s).expectedClipboardText = s.expectedClipboardText := by
  cases e with
  | pasteKey c =>
      simp only [stepCallback, on_paste_hotkey]
      rcases hexp : s.expectedClipboardText with _ | expected
      · simp [hexp]
      · by_cases hc : c = expected <;> simp [hexp, hc]
  | skipPromptKey => rfl
  | skipDownloadKey => rfl

theorem applyEvents_expected (es : List HotkeyEvent) (s : CoordState) :
    (applyEvents es s).expectedClipboardText = s.expectedClipboardText := by
  induction es generalizing s with
  | nil => rfl
  | cons e es ih =>
      simp only [applyEvents, List.foldl_cons] at *
      rw [ih, stepCallback_expected]

theorem stepCallback_paste_mono (e : HotkeyEvent) (s : CoordState)
    (h : s.pasteEvent = true) : (stepCallback e s).pasteEvent = true := by
  cases e with
  | pasteKey c =>
      simp only [stepCallback, on_paste_hotkey]
      rcases hexp : s.expectedClipboardText with _ | expected
      · simp [hexp, h]
      · by_cases hc : c = expected <;> simp [hexp, hc, h]
  | skipPromptKey => exact h
  | skipDownloadKey => exact h

theorem applyEvents_paste_mono (es : List HotkeyEvent) (s : CoordState)
    (h : s.pasteEvent = true) : (applyEvents es s).pasteEvent = true := by
  induction es generalizing s with
  | nil => exact h
  | cons e es ih =>
      simp only [applyEvents, List.foldl_cons] at *
      exact ih _ (stepCallback_paste_mono e s h)

theorem stepCallback_paste_true (e : HotkeyEvent) (s : CoordState)
    (h : (stepCallback e s).pasteEvent = true) :
    s.pasteEvent = true ∨
      ∃ c, e = HotkeyEvent.pasteKey c ∧ s.expectedClipboardText = some c := by
  cases e with
  | pasteKey c =>
      simp only [stepCallback, on_paste_hotkey] at h
      rcases hexp : s.expectedClipboardText with _ | expected
      · rw [hexp] at h; exact Or.inl h
      · rw [hexp] at h
        by_cases hc : c = expected
        · exact Or.inr ⟨expected, by rw [hc], rfl⟩
        · simp [hc] at h; exact Or.inl h
  | skipPromptKey => exact Or.inl h
  | skipDownloadKey => exact Or.inl h

theorem applyEvents_paste_true (es : List HotkeyEvent) (s : CoordState)
    (h : (applyEvents es s).pasteEvent = true) :
    s.pasteEvent = true ∨
      ∃ c, HotkeyEvent.pasteKey c ∈ es ∧ s.expectedClipboardText = some c := by
  induction es generalizing s with
  | nil => exact Or.inl h
  | cons e es ih =>
      simp only [applyEvents, List.foldl_cons] at h
      rcases ih (stepCallback e s) h with h1 | ⟨c, hc, hexp⟩
      · rcases stepCallback_paste_true e s h1 with h2 | ⟨c, rfl, hexp⟩
        · exact Or.inl h2
        · exact Or.inr ⟨c, List.mem_cons_self _ _, hexp⟩
      · rw [stepCallback_expected] at hexp
        exact Or.inr ⟨c, List.mem_cons_of_mem _ hc, hexp⟩

theorem applyEvents_paste_set (es : List HotkeyEvent) (s : CoordState) (c : String)
    (hmem : HotkeyEvent.pasteKey c ∈ es) (hexp : s.expectedClipboardText = some c) :
    (applyEvents es s).pasteEvent = true := by
  induction es generalizing s with
  | nil => cases hmem
  | cons e es ih =>
      simp only [applyEvents, List.foldl_cons] at *
      rcases List.mem_cons.mp hmem with rfl | hmem
      · apply applyEvents_paste_mono
        simp [stepCallback, on_paste_hotkey, hexp]
      · exact ih (stepCallback e s) hmem
          (by rw [stepCallback_expected]; exact hexp)

theorem stepCallback_skipPrompt_mono (e : HotkeyEvent) (s : CoordState)
    (h : s.skipPromptEvent = true) : (stepCallback e s).skipPromptEvent = true := by
  cases e with
  | pasteKey c =>
      simp only [stepCallback, on_paste_hotkey]
      rcases hexp : s.expectedClipboardText with _ | expected
      · simp [hexp, h]
      · by_cases hc : c = expected <;> simp [hexp, hc, h]
  | skipPromptKey => simp [stepCallback, on_skip_prompt_hotkey]
  | skipDownloadKey => exact h

theorem applyEvents_skipPrompt_mono (es : List HotkeyEvent) (s : CoordState)
    (h : s.skipPromptEvent = true) : (applyEvents es s).skipPromptEvent = true := by
  induction es generalizing s with
  | nil => exact h
  | cons e es ih =>
      simp only [applyEvents, List.foldl_cons] at *
      exact ih _ (stepCallback_skipPrompt_mono e s h)

theorem applyEvents_skipPrompt_set (es : List HotkeyEvent) (s : CoordState)
    (hmem : HotkeyEvent.skipPromptKey ∈ es) :
    (applyEvents es s).skipPromptEvent = true := by
  induction es generalizing s with
  | nil => cases hmem
  | cons e es ih =>
      simp only [applyEvents, List.foldl_cons] at *
      rcases List.mem_cons.mp hmem with rfl | hmem
      · exact applyEvents_skipPrompt_mono es _
          (by simp [stepCallback, on_skip_prompt_hotkey])
      · exact ih (stepCallback e s) hmem

theorem stepCallback_skipPrompt_true (e : HotkeyEvent) (s : CoordState)
    (h : (stepCallback e s).skipPromptEvent = true) :
    s.skipPromptEvent = true ∨ e = HotkeyEvent.skipPromptKey := by
  cases e with
  | pasteKey c =>
      simp only [stepCallback, on_paste_hotkey] at h
      rcases hexp : s.expectedClipboardText with _ | expected
      · rw [hexp] at h; exact Or.inl h
      · rw [hexp] at h
        by_cases hc : c = expected
        · simp [hc] at h; exact Or.inl h
        · simp [hc] at h; exact Or.inl h
  | skipPromptKey => exact Or.inr rfl
  | skipDownloadKey => exact Or.inl h

theorem applyEvents_skipPrompt_true (es : List HotkeyEvent) (s : CoordState)
    (h : (applyEvents es s).skipPromptEvent = true) :
    s.skipPromptEvent = true ∨ HotkeyEvent.skipPromptKey ∈ es := by
  induction es generalizing s with
  | nil => exact Or.inl h
  | cons e es ih =>
      simp only [applyEvents, List.foldl_cons] at h
      rcases ih (stepCallback e s) h with h1 | h1
      · rcases stepCallback_skipPrompt_true e s h1 with h2 | rfl
        · exact Or.inl h2
        · exact Or.inr (List.mem_cons_self _ _)
      · exact Or.inr (List.mem_cons_of_mem _ h1)

theorem stepCallback_skipDownload_only (e : HotkeyEvent) (s : CoordState) :
    (stepCallback e s).skipWaitDownloadEvent =
      (s.skipWaitDownloadEvent || decide (e = HotkeyEvent.skipDownloadKey)) := by
  cases e with
  | pasteKey c =>
      simp only [stepCallback, on_paste_hotkey]
      rcases hexp : s.expectedClipboardText with _ | expected
      · simp
      · by_cases hc : c = expected <;> simp [hc]
  | skipPromptKey => simp [stepCallback, on_skip_prompt_hotkey]
  | skipDownloadKey => simp [stepCallback, on_skip_wait_download_hotkey]

theorem applyEvents_skipDownload_only (es : List HotkeyEvent) (s : CoordState) :
    (applyEvents es s).skipWaitDownloadEvent =
      (s.skipWaitDownloadEvent || es.contains HotkeyEvent.skipDownloadKey) := by
  induction es generalizing s with
  | nil => simp [applyEvents]
  | cons e es ih =>
      simp only [applyEvents, List.foldl_cons] at *
      rw [ih, stepCallback_skipDownload_only, List.contains_cons]
      cases s.skipWaitDownloadEvent <;> cases e <;> simp

theorem pyMaxByMtime_mem (l : List FsPath) (p : FsPath)
    (h : pyMaxByMtime l = some p) : p ∈ l := by
  match l with
  | [] => cases h
  | q :: qs =>
      simp only [pyMaxByMtime, Option.some.injEq] at h
      subst h
      suffices hgen : ∀ (qs : List FsPath) (q : FsPath),
          qs.foldl (fun best r => if best.mtime < r.mtime then r else best) q ∈ q :: qs by
        exact hgen qs q
      intro qs
      induction qs with
      | nil => intro q; simp
      | cons r rs ih =>
          intro q
          simp only [List.foldl_cons]
          by_cases hlt : q.mtime < r.mtime
          · simp only [hlt, if_pos]
            rcases List.mem_cons.mp (ih r) with h | h
            · rw [h]; simp
            · simp [h]
          · simp only [hlt, if_neg, if_false]
            rcases List.mem_cons.mp (ih q) with h | h
            · rw [h]; simp
            · simp [h]

/-! ## Decimal numerals: `Nat.repr` is injective

`move_and_rename_file`'s collision counter is rendered with Python's
`str(counter)`; termination of its naming loop rests on distinct counters
rendering to distinct strings.  `Nat.repr n = (Nat.toDigits 10 n).asString`,
so we relate `Nat.toDigits` to `Nat.digits` and transport injectivity. -/

theorem toDigitsCore_eq_digits (f : Nat) :
    ∀ (n : Nat) (ds : List Char), 0 < n → n ≤ f →
      Nat.toDigitsCore 10 f n ds =
        ((Nat.digits 10 n).map Nat.digitChar).reverse ++ ds := by
  induction f with
  | zero => intro n ds h0 hf; omega
  | succ f ih =>
      intro n ds h0 hf
      by_cases hdiv : n / 10 = 0
      · have hn10 : n < 10 := by omega
        have hd : Nat.digits 10 n = [n % 10] := by
          rw [Nat.digits_def' (by norm_num : (1 : Nat) < 10) h0, hdiv, Nat.digits_zero]
        simp [Nat.toDigitsCore, hdiv, hd]
      · have h0' : 0 < n / 10 := Nat.pos_of_ne_zero hdiv
        have hlt : n / 10 < n := Nat.div_lt_self h0 (by norm_num)
        have hd : Nat.digits 10 n = n % 10 :: Nat.digits 10 (n / 10) :=
          Nat.digits_def' (by norm_num) h0
        simp only [Nat.toDigitsCore, hdiv, if_false]
        rw [ih (n / 10) (Nat.digitChar (n % 10) :: ds) h0' (by omega), hd]
        simp [List.reverse_cons, List.append_assoc]

theorem toDigits_eq_digits (n : Nat) (h0 : 0 < n) :
    Nat.toDigits 10 n = ((Nat.digits 10 n).map Nat.digitChar).reverse := by
  rw [Nat.toDigits, toDigitsCore_eq_digits (n + 1) n [] h0 (by omega), List.append_nil]

theorem digitChar_inj_lt :
    ∀ a, a < 10 → ∀ b, b < 10 → Nat.digitChar a = Nat.digitChar b → a = b := by decide

theorem map_digitChar_inj :
    ∀ (l₁ l₂ : List Nat), (∀ x ∈ l₁, x < 10) → (∀ x ∈ l₂, x < 10) →
      l₁.map Nat.digitChar = l₂.map Nat.digitChar → l₁ = l₂ := by
  intro l₁
  induction l₁ with
  | nil =>
      intro l₂ _ _ h
      cases l₂ with
      | nil => rfl
      | cons b l' => simp at h
  | cons a l ih =>
      intro l₂ h1 h2 h
      cases l₂ with
      | nil => simp at h
      | cons b l' =>
          simp only [List.map_cons, List.cons.injEq] at h
          have hab : a = b :=
            digitChar_inj_lt a (h1 a (by simp)) b (h2 b (by simp)) h.1
          rw [hab,
            ih l' (fun x hx => h1 x (by simp [hx])) (fun x hx => h2 x (by simp [hx])) h.2]

theorem toDigits_pos_ne_zero (n : Nat) (hn : 0 < n)
    (hd : Nat.toDigits 10 n = Nat.toDigits 10 0) : False := by
  have h0 : Nat.toDigits 10 0 = ['0'] := rfl
  rw [toDigits_eq_digits n hn, h0] at hd
  have h1 : (Nat.digits 10 n).map Nat.digitChar = ['0'] := by
    have := congrArg List.reverse hd
    simpa using this
  have hdig : Nat.digits 10 n = [0] := by
    cases hdl : Nat.digits 10 n with
    | nil => rw [hdl] at h1; simp at h1
    | cons d ds =>
        rw [hdl] at h1
        cases ds with
        | nil =>
            simp only [List.map_cons, List.map_nil, List.cons.injEq] at h1
            have hd10 : d < 10 :=
              Nat.digits_lt_base (by norm_num) (by rw [hdl]; simp)
            have hd0 : d = 0 :=
              digitChar_inj_lt d hd10 0 (by norm_num) h1.1
            rw [hd0]
        | cons d' ds' => simp at h1
  have hof := Nat.ofDigits_digits 10 n
  rw [hdig] at hof
  simp [Nat.ofDigits] at hof
  omega

theorem Nat_repr_injective : Function.Injective Nat.repr := by
  intro m n h
  have hd : Nat.toDigits 10 m = Nat.toDigits 10 n := by
    have hdata := congrArg String.data h
    simpa [Nat.repr, List.asString] using hdata
  rcases Nat.eq_zero_or_pos m with rfl | hm
  · rcases Nat.eq_zero_or_pos n with rfl | hn
    · rfl
    · exact absurd hd.symm (toDigits_pos_ne_zero n hn)
  · rcases Nat.eq_zero_or_pos n with rfl | hn
    · exact absurd hd (toDigits_pos_ne_zero m hm)
    · rw [toDigits_eq_digits m hm, toDigits_eq_digits n hn] at hd
      have h1 := congrArg List.reverse hd
      simp only [List.reverse_reverse] at h1
      have h2 := map_digitChar_inj _ _
        (fun x hx => Nat.digits_lt_base (by norm_num) hx)
        (fun x hx => Nat.digits_lt_base (by norm_num) hx) h1
      have h3 := congrArg (Nat.ofDigits 10) h2
      rwa [Nat.ofDigits_digits, Nat.ofDigits_digits] at h3

/-! ## The destination-name search -/

theorem candName_injective (t : String) : Function.Injective (candName t) := by
  intro i j h
  match i, j with
  | 0, 0 => rfl
  | 0, Nat.succ k =>
      exfalso
      have hlen := congrArg String.length h
      simp only [candName, String.length_append] at hlen
      have h1 : (".png" : String).length = 4 := rfl
      have h2 : (" " : String).length = 1 := rfl
      omega
  | Nat.succ k, 0 =>
      exfalso
      have hlen := congrArg String.length h
      simp only [candName, String.length_append] at hlen
      have h1 : (".png" : String).length = 4 := rfl
      have h2 : (" " : String).length = 1 := rfl
      omega
  | Nat.succ k, Nat.succ k' =>
      have hdata := congrArg String.data h
      simp only [candName, String.data_append] at hdata
      have hmid : (Nat.repr (k + 1)).data = (Nat.repr (k' + 1)).data := by
        have hr := List.append_cancel_right hdata
        exact List.append_cancel_left hr
      have hstr : Nat.repr (k + 1) = Nat.repr (k' + 1) := by
        cases hrepr1 : Nat.repr (k + 1)
        cases hrepr2 : Nat.repr (k' + 1)
        rw [hrepr1, hrepr2] at hmid
        simp_all
      have := Nat_repr_injective hstr
      omega

theorem exists_candName_free (existing : List String) (t : String) :
    ∃ k, k ≤ existing.length ∧ candName t k ∉ existing := by
  by_contra hcon
  push_neg at hcon
  have hsub : (Finset.range (existing.length + 1)).image (candName t) ⊆
      existing.toFinset := by
    intro x hx
    simp only [Finset.mem_image, Finset.mem_range] at hx
    rcases hx with ⟨k, hk, rfl⟩
    rw [List.mem_toFinset]
    exact hcon k (by omega)
  have hcard := Finset.card_le_card hsub
  rw [Finset.card_image_of_injective _ (candName_injective t), Finset.card_range] at hcard
  have htf := existing.toFinset_card_le
  omega

theorem moveLoop_spec (existing : List String) (t : String) :
    ∀ (fuel counter : Nat),
      (∃ k, counter ≤ k ∧ k < counter + fuel ∧ candName t k ∉ existing) →
      ∃ k, moveLoop existing t fuel counter = candName t k ∧
        candName t k ∉ existing ∧ counter ≤ k ∧
        ∀ j, counter ≤ j → j < k → candName t j ∈ existing := by
  intro fuel
  induction fuel with
  | zero =>
      intro counter h
      obtain ⟨k, h1, h2, _⟩ := h
      omega
  | succ fuel ih =>
      intro counter h
      obtain ⟨k, hk1, hk2, hk3⟩ := h
      by_cases hc : candName t counter ∈ existing
      · have hkne : k ≠ counter := by
          rintro rfl
          exact hk3 hc
        obtain ⟨k', heq, hfree, hge, hmin⟩ :=
          ih (counter + 1) ⟨k, by omega, by omega, hk3⟩
        refine ⟨k', ?_, hfree, by omega, ?_⟩
        · simpa [moveLoop, hc] using heq
        · intro j hj1 hj2
          rcases Nat.eq_or_lt_of_le hj1 with rfl | hlt
          · exact hc
          · exact hmin j (by omega) hj2
      · exact ⟨counter, by simp [moveLoop, hc], hc, Nat.le_refl _,
          fun j h1 h2 => by omega⟩

theorem move_and_rename_file_spec (existing : List String) (t : String) :
    ∃ k, move_and_rename_file existing t = candName t k ∧
      candName t k ∉ existing ∧ ∀ j, j < k → candName t j ∈ existing := by
  obtain ⟨k, hk1, hk2⟩ := exists_candName_free existing t
  obtain ⟨k', h1, h2, _, h4⟩ :=
    moveLoop_spec existing t (existing.length + 1) 0 ⟨k, by omega, by omega, hk2⟩
  exact ⟨k', h1, h2, fun j hj => h4 j (by omega) hj⟩

theorem placeAll_no_overwrite :
    ∀ (targets existing : List String),
      (placeAll existing targets).1.Nodup ∧
        ∀ d ∈ (placeAll existing targets).1, d ∉ existing := by
  intro targets
  induction targets with
  | nil => intro ex; simp [placeAll]
  | cons t ts ih =>
      intro ex
      obtain ⟨hnd, hmem⟩ := ih (move_and_rename_file ex t :: ex)
      have hfresh : move_and_rename_file ex t ∉ ex := by
        obtain ⟨k, hk1, hk2, _⟩ := move_and_rename_file_spec ex t
        rw [hk1]
        exact hk2
      constructor
      · simp only [placeAll, List.nodup_cons]
        exact ⟨fun hin => (hmem _ hin) (List.mem_cons_self _ _), hnd⟩
      · intro d hd
        simp only [placeAll, List.mem_cons] at hd
        rcases hd with rfl | hd
        · exact hfresh
        · intro hdex
          exact (hmem d hd) (List.mem_cons_of_mem _ hdex)

/-! ## Facts about the wait loops -/

theorem confLoop_exit_expected (tmo : Option Nat) :
    ∀ (iters : List ConfIter) (s : CoordState) (r : Bool) (s' : CoordState),
      confLoop tmo s iters = some (r, s') → s'.expectedClipboardText = none := by
  intro iters
  induction iters with
  | nil => intro s r s' h; simp [confLoop] at h
  | cons it rest ih =>
      intro s r s' h
      simp only [confLoop] at h
      by_cases h1 : (applyEvents it.events s).pasteEvent = true
      · rw [if_pos h1] at h
        simp only [Option.some.injEq, Prod.mk.injEq] at h
        rw [← h.2]
      · rw [if_neg h1] at h
        by_cases h2 : (applyEvents it.events s).skipPromptEvent = true
        · rw [if_pos h2] at h
          simp only [Option.some.injEq, Prod.mk.injEq] at h
          rw [← h.2]
        · rw [if_neg h2] at h
          by_cases h3 : timeoutExpired tmo it.elapsed = true
          · rw [if_pos h3] at h
            simp only [Option.some.injEq, Prod.mk.injEq] at h
            rw [← h.2]
          · rw [if_neg h3] at h
            exact ih _ r s' h

theorem confLoop_true_paste (tmo : Option Nat) (expected : String) :
    ∀ (iters : List ConfIter) (s : CoordState), s.pasteEvent = false →
      s.expectedClipboardText = some expected →
      ∀ s', confLoop tmo s iters = some (true, s') →
      ∃ it ∈ iters, HotkeyEvent.pasteKey expected ∈ it.events := by
  intro iters
  induction iters with
  | nil => intro s _ _ s' h; simp [confLoop] at h
  | cons it rest ih =>
      intro s hp hexp s' h
      simp only [confLoop] at h
      by_cases h1 : (applyEvents it.events s).pasteEvent = true
      · refine ⟨it, List.mem_cons_self _ _, ?_⟩
        rcases applyEvents_paste_true it.events s h1 with hfalse | ⟨c, hc, hcexp⟩
        · rw [hp] at hfalse; cases hfalse
        · rw [hexp] at hcexp
          obtain rfl : expected = c := by injection hcexp
          exact hc
      · rw [if_neg h1] at h
        by_cases h2 : (applyEvents it.events s).skipPromptEvent = true
        · rw [if_pos h2] at h
          simp at h
        · rw [if_neg h2] at h
          by_cases h3 : timeoutExpired tmo it.elapsed = true
          · rw [if_pos h3] at h
            simp at h
          · rw [if_neg h3] at h
            have hp1 : (applyEvents it.events s).pasteEvent = false := by
              cases hval : (applyEvents it.events s).pasteEvent
              · rfl
              · exact absurd hval h1
            have hexp1 : (applyEvents it.events s).expectedClipboardText = some expected := by
              rw [applyEvents_expected]; exact hexp
            obtain ⟨it', hit', hmem⟩ := ih _ hp1 hexp1 s' h
            exact ⟨it', List.mem_cons_of_mem _ hit', hmem⟩

theorem dlStep_congr (snap : List String) (tmo : Option Nat) (it : DlIter)
    (s1 s2 : CoordState)
    (h : s1.skipWaitDownloadEvent = s2.skipWaitDownloadEvent) :
    dlStep snap tmo it s1 = dlStep snap tmo it s2 := by
  simp only [dlStep, h]

theorem applyEvents_skipDownload_congr (es : List HotkeyEvent) (s1 s2 : CoordState)
    (h : s1.skipWaitDownloadEvent = s2.skipWaitDownloadEvent) :
    (applyEvents es s1).skipWaitDownloadEvent =
      (applyEvents es s2).skipWaitDownloadEvent := by
  rw [applyEvents_skipDownload_only, applyEvents_skipDownload_only, h]

theorem dlLoop_fst_congr (snap : List String) (tmo : Option Nat) :
    ∀ (iters : List DlIter) (s1 s2 : CoordState),
      s1.skipWaitDownloadEvent = s2.skipWaitDownloadEvent →
      (dlLoop snap tmo s1 iters).map Prod.fst =
        (dlLoop snap tmo s2 iters).map Prod.fst := by
  intro iters
  induction iters with
  | nil => intro s1 s2 _; rfl
  | cons it rest ih =>
      intro s1 s2 h
      have hstep : dlStep snap tmo it (applyEvents it.events s1) =
          dlStep snap tmo it (applyEvents it.events s2) :=
        dlStep_congr _ _ _ _ _ (applyEvents_skipDownload_congr it.events s1 s2 h)
      simp only [dlLoop, hstep]
      cases dlStep snap tmo it (applyEvents it.events s2) with
      | some r => simp
      | none => exact ih _ _ (applyEvents_skipDownload_congr it.events s1 s2 h)

theorem dlStep_some_path (snap : List String) (tmo : Option Nat) (it : DlIter)
    (s1 : CoordState) (p : FsPath)
    (hshape : ∀ e, it.poll = QueuePoll.item e → e.filename = e.path.name)
    (h : dlStep snap tmo it s1 = some (some p)) :
    strEndsWith (strLower p.name) ".png" = true ∧ p.name ∉ snap := by
  simp only [dlStep] at h
  by_cases h1 : s1.skipWaitDownloadEvent = true
  · rw [if_pos h1] at h; simp at h
  · rw [if_neg h1] at h
    cases hpoll : it.poll with
    | empty el =>
        rw [hpoll] at h
        simp only [dlStepPoll] at h
        by_cases h2 : timeoutExpired tmo el = true
        · rw [if_pos h2] at h; simp at h
        · rw [if_neg h2] at h; cases h
    | item evt =>
        rw [hpoll] at h
        simp only [dlStepPoll] at h
        by_cases h3 : strEndsWith (strLower evt.filename) ".png" = true
        · rw [if_neg (not_not_intro h3)] at h
          by_cases h4 : evt.filename ∈ snap
          · rw [if_pos h4] at h; cases h
          · rw [if_neg h4] at h
            by_cases h5 : isUnstableName evt.filename = true
            · rw [if_pos h5] at h
              cases hmax : pyMaxByMtime
                  ((globPng it.listing).filter (fun q => decide (q.name ∉ snap))) with
              | none => rw [hmax] at h; cases h
              | some latest =>
                  rw [hmax] at h
                  simp only [dlStepUnstable] at h
                  by_cases h6 : it.readyLatest = true
                  · rw [if_pos h6] at h
                    simp only [Option.some.injEq] at h
                    obtain rfl : latest = p := h
                    have hmem := pyMaxByMtime_mem _ _ hmax
                    have hfil := List.mem_filter.mp hmem
                    have hglob := List.mem_filter.mp hfil.1
                    refine ⟨hglob.2, ?_⟩
                    exact of_decide_eq_true hfil.2
                  · rw [if_neg h6] at h; cases h
            · rw [if_neg h5] at h
              by_cases h7 : it.readyDirect = true
              · rw [if_pos h7] at h
                simp only [Option.some.injEq] at h
                obtain rfl : evt.path = p := h
                have hname := hshape evt hpoll
                rw [← hname]
                exact ⟨h3, h4⟩
              · rw [if_neg h7] at h; cases h
        · rw [if_pos h3] at h; cases h

theorem dlLoop_ret_png (snap : List String) (tmo : Option Nat) :
    ∀ (iters : List DlIter) (s : CoordState),
      (∀ it ∈ iters, ∀ e, it.poll = QueuePoll.item e → e.filename = e.path.name) →
      ∀ p s', dlLoop snap tmo s iters = some (some p, s') →
        strEndsWith (strLower p.name) ".png" = true ∧ p.name ∉ snap := by
  intro iters
  induction iters with
  | nil => intro s _ p s' h; simp [dlLoop] at h
  | cons it rest ih =>
      intro s hshape p s' h
      simp only [dlLoop] at h
      cases hstep : dlStep snap tmo it (applyEvents it.events s) with
      | some r =>
          rw [hstep] at h
          simp only [Option.some.injEq, Prod.mk.injEq] at h
          obtain rfl : r = some p := h.1
          exact dlStep_some_path snap tmo it _ p
            (hshape it (List.mem_cons_self _ _)) hstep
      | none =>
          rw [hstep] at h
          exact ih _ (fun it' hit' => hshape it' (List.mem_cons_of_mem _ hit')) p s' h

theorem dlStep_some_none (snap : List String) (tmo : Option Nat) (it : DlIter)
    (s1 : CoordState) (h : dlStep snap tmo it s1 = some none) :
    s1.skipWaitDownloadEvent = true ∨
      ∃ el, it.poll = QueuePoll.empty el ∧ timeoutExpired tmo el = true := by
  simp only [dlStep] at h
  by_cases h1 : s1.skipWaitDownloadEvent = true
  · exact Or.inl h1
  · rw [if_neg h1] at h
    cases hpoll : it.poll with
    | empty el =>
        rw [hpoll] at h
        simp only [dlStepPoll] at h
        by_cases h2 : timeoutExpired tmo el = true
        · exact Or.inr ⟨el, rfl, h2⟩
        · rw [if_neg h2] at h; cases h
    | item evt =>
        rw [hpoll] at h
        simp only [dlStepPoll] at h
        exfalso
        by_cases h3 : strEndsWith (strLower evt.filename) ".png" = true
        · rw [if_neg (not_not_intro h3)] at h
          by_cases h4 : evt.filename ∈ snap
          · rw [if_pos h4] at h; cases h
          · rw [if_neg h4] at h
            by_cases h5 : isUnstableName evt.filename = true
            · rw [if_pos h5] at h
              cases hmax : pyMaxByMtime
                  ((globPng it.listing).filter (fun q => decide (q.name ∉ snap))) with
              | none => rw [hmax] at h; cases h
              | some latest =>
                  rw [hmax] at h
                  simp only [dlStepUnstable] at h
                  by_cases h6 : it.readyLatest = true
                  · rw [if_pos h6] at h; simp at h
                  · rw [if_neg h6] at h; cases h
            · rw [if_neg h5] at h
              by_cases h7 : it.readyDirect = true
              · rw [if_pos h7] at h; simp at h
              · rw [if_neg h7] at h; cases h
        · rw [if_pos h3] at h; cases h

theorem dlLoop_none_cause (snap : List String) (tmo : Option Nat) :
    ∀ (iters : List DlIter) (s : CoordState), s.skipWaitDownloadEvent = false →
      ∀ s', dlLoop snap tmo s iters = some (none, s') →
        (∃ it ∈ iters, HotkeyEvent.skipDownloadKey ∈ it.events) ∨
        (∃ it ∈ iters, ∃ el, it.poll = QueuePoll.empty el ∧
          timeoutExpired tmo el = true) := by
  intro iters
  induction iters with
  | nil => intro s _ s' h; simp [dlLoop] at h
  | cons it rest ih =>
      intro s hskip s' h
      simp only [dlLoop] at h
      cases hstep : dlStep snap tmo it (applyEvents it.events s) with
      | some r =>
          rw [hstep] at h
          simp only [Option.some.injEq, Prod.mk.injEq] at h
          obtain rfl : r = none := h.1
          rcases dlStep_some_none snap tmo it _ hstep with h1 | ⟨el, hel, htm⟩
          · left
            refine ⟨it, List.mem_cons_self _ _, ?_⟩
            rw [applyEvents_skipDownload_only, hskip, Bool.false_or] at h1
            have : HotkeyEvent.skipDownloadKey ∈ it.events := by
              simpa using h1
            exact this
          · exact Or.inr ⟨it, List.mem_cons_self _ _, el, hel, htm⟩
      | none =>
          rw [hstep] at h
          have hskip1 : (applyEvents it.events s).skipWaitDownloadEvent = false := by
            cases hval : (applyEvents it.events s).skipWaitDownloadEvent
            · rfl
            · exfalso
              have hcontra : dlStep snap tmo it (applyEvents it.events s) = some none := by
                simp [dlStep, hval]
              rw [hstep] at hcontra
              cases hcontra
          rcases ih _ hskip1 s' h with ⟨it', h1, h2⟩ | ⟨it', h1, h2⟩
          · exact Or.inl ⟨it', List.mem_cons_of_mem _ h1, h2⟩
          · exact Or.inr ⟨it', List.mem_cons_of_mem _ h1, h2⟩

/-! ## Claim theorems -/

/-- Claim C1: `move_and_rename_file` never overwrites an existing file in the
destination directory: the chosen name is never one already present; it is
`"{targetBaseName}.png"` when that is free, and otherwise
`"{targetBaseName} {n}.png"` for the smallest positive `n` whose name is free
(every smaller candidate is taken); processing `["Alice", "Alice"]` starting
from an empty directory produces `Alice.png` and `Alice 1.png`; and over any
sequence of relocations the chosen names never collide with pre-existing
files or with each other. -/
theorem c1_move_and_rename_collision_free :
    (∀ (existing : List String) (targetName : String),
        move_and_rename_file existing targetName ∉ existing) ∧
    (∀ (existing : List String) (targetName : String),
        candName targetName 0 ∉ existing →
        move_and_rename_file existing targetName = candName targetName 0) ∧
    (∀ (existing : List String) (targetName : String) (n : Nat),
        move_and_rename_file existing targetName = candName targetName n →
        ∀ j, j < n → candName targetName j ∈ existing) ∧
    placeAll [] ["Alice", "Alice"] =
      (["Alice.png", "Alice 1.png"], ["Alice 1.png", "Alice.png"]) ∧
    (∀ (existing targets : List String),
        (placeAll existing targets).1.Nodup ∧
        ∀ d ∈ (placeAll existing targets).1, d ∉ existing) := by
  refine ⟨?_, ?_, ?_, by decide, fun existing targets =>
    placeAll_no_overwrite targets existing⟩
  · intro ex t
    obtain ⟨k, h1, h2, _⟩ := move_and_rename_file_spec ex t
    rw [h1]
    exact h2
  · intro ex t h0
    obtain ⟨k, h1, h2, h3⟩ := move_and_rename_file_spec ex t
    rcases Nat.eq_zero_or_pos k with rfl | hk
    · exact h1
    · exact absurd (h3 0 hk) h0
  · intro ex t n heq j hj
    obtain ⟨k, h1, h2, h3⟩ := move_and_rename_file_spec ex t
    rw [h1] at heq
    have hkn : k = n := candName_injective t heq
    subst hkn
    exact h3 j hj

/-- Claim C1 witness: with `b.png` already present, the base name
`Alice.png` is free and is chosen. -/
theorem c1_move_and_rename_collision_free_witness :
    move_and_rename_file ["b.png"] "Alice" = candName "Alice" 0 :=
  c1_move_and_rename_collision_free.2.1 ["b.png"] "Alice" (by decide)

/-- Claim C5 counterexample: on an interrupted run, the `finally` block of
`run` leaves the hotkey registrations in place — the program has no code path
that releases hotkeys, so the claimed "hotkeys are released before the
process exits" fails. -/
theorem c5_hotkeys_not_released :
    (runCleanup RunTermination.interrupted
        (register_hotkeys { observerActive := true, hotkeysActive := false })
      ).hotkeysActive = true := by decide

/-- Claim C5 (amended): on every termination of `run` — normal completion,
a per-item error, or external interruption — the `finally` block stops and
joins the filesystem watcher; the hotkey registrations are left exactly as
they were (they are never released by the program). -/
theorem c5_cleanup_amended :
    ∀ (t : RunTermination) (r : ResourceState),
      (runCleanup t r).observerActive = false ∧
      (runCleanup t r).hotkeysActive = r.hotkeysActive := by
  intro t r
  cases hval : r.observerActive <;>
    simp [runCleanup, stop_downloads_watcher, hval]

/-- Claim C9 counterexample: with the run-start snapshot empty and a file
`x.png` created before the (confirmed) item's download wait begins, the
snapshot passed to the wait step is the stale empty one, not the listing an
"immediately before the step" capture would see. -/
theorem c9_snapshot_not_recaptured :
    ((runMainLoop [] [⟨true, none, ["x.png"], ["x.png"], true⟩]).1.map
        ItemRecord.snapshotPassed = [some []]) ∧
    ((⟨true, none, ["x.png"], ["x.png"], true⟩ : ItemEnv).listingAtDlStart =
        ["x.png"]) ∧
    some ([] : List String) ≠ some ["x.png"] := by decide

/-- Claim C9 (amended): the snapshot passed to an item's download wait is the
value of `original_snapshot` captured at run start or at the previous
post-wait refresh — it is not recaptured immediately before the wait begins —
and after every download wait (whether it returned a path or `None`) the
snapshot is refreshed from the live directory listing; an item skipped at the
prompt leaves the snapshot untouched. -/
theorem c9_snapshot_amended :
    ∀ (snap : List String) (env : ItemEnv),
      (env.confirmed = true →
        (runItem snap env).1.snapshotPassed = some snap ∧
        (runItem snap env).1.snapshotAfter = env.listingAfterDl ∧
        (runItem snap env).2 = env.listingAfterDl) ∧
      (env.confirmed = false →
        (runItem snap env).1.snapshotPassed = none ∧
        (runItem snap env).2 = snap) := by
  intro snap env
  constructor
  · intro h
    cases hdl : env.dlResult <;> simp [runItem, h, hdl]
  · intro h
    simp [runItem, h]

/-- Claim C9 witness: a confirmed item whose download wait returned `None`
still refreshes the snapshot from the live listing. -/
theorem c9_snapshot_amended_witness :
    (runItem [] ⟨true, none, [], ["y.png"], true⟩).1.snapshotPassed = some [] ∧
    (runItem [] ⟨true, none, [], ["y.png"], true⟩).1.snapshotAfter = ["y.png"] ∧
    (runItem [] ⟨true, none, [], ["y.png"], true⟩).2 = ["y.png"] :=
  (c9_snapshot_amended [] ⟨true, none, [], ["y.png"], true⟩).1 rfl

/-- Claim C10: when no expected clipboard text is active, the Ctrl+V callback
leaves the coordinator state unchanged, sets no flag and emits no warning —
it returns immediately after the (state-irrelevant) clipboard read. -/
theorem c10_paste_hotkey_noop :
    ∀ (clipboard : String) (s : CoordState),
      s.expectedClipboardText = none →
      on_paste_hotkey clipboard s = (s, false) := by
  intro c s h
  simp [on_paste_hotkey, h]

/-- Claim C10 witness: a Ctrl+V press on the freshly constructed instance
(no expected text) is a no-op with no warning. -/
theorem c10_paste_hotkey_noop_witness :
    on_paste_hotkey "anything" initCoordState = (initCoordState, false) :=
  c10_paste_hotkey_noop "anything" initCoordState rfl

/-- Claim C2 counterexample: `_wait_for_user_paste_or_skip` returns a plain
boolean, and a skip-triggered exit and a timeout-triggered exit both return
`False` — the caller cannot distinguish the claimed `Skipped` and `TimedOut`
outcomes. -/
theorem c2_skip_timeout_indistinguishable :
    (wait_for_user_paste_or_skip "x" none initCoordState
        [⟨[HotkeyEvent.skipPromptKey], 0⟩]).map Prod.fst = some false ∧
    (wait_for_user_paste_or_skip "x" (some 0) initCoordState
        [⟨[], 1⟩]).map Prod.fst = some false := by decide

/-- Claim C2 (amended): `_wait_for_user_paste_or_skip` returns `True`
(confirmed) only when the Ctrl+V callback fired while the observed clipboard
exactly equalled the expected text (and it does return `True` whenever such a
firing is present at the first poll); with no matching paste firing, a
skip-prompt firing produces `False`, and an expired timeout with no
skip-prompt firing also produces `False` — skip and timeout are merged into
the single `False` return. -/
theorem c2_wait_confirmation_amended (expected : String) (tmo : Option Nat)
    (s : CoordState) :
    (∀ (iters : List ConfIter) (s' : CoordState),
        wait_for_user_paste_or_skip expected tmo s iters = some (true, s') →
        ∃ it ∈ iters, HotkeyEvent.pasteKey expected ∈ it.events) ∧
    (∀ (it : ConfIter) (rest : List ConfIter),
        HotkeyEvent.pasteKey expected ∈ it.events →
        (wait_for_user_paste_or_skip expected tmo s (it :: rest)).map Prod.fst =
          some true) ∧
    (∀ (it : ConfIter) (rest : List ConfIter),
        (∀ c, HotkeyEvent.pasteKey c ∉ it.events) →
        HotkeyEvent.skipPromptKey ∈ it.events →
        (wait_for_user_paste_or_skip expected tmo s (it :: rest)).map Prod.fst =
          some false) ∧
    (∀ (it : ConfIter) (rest : List ConfIter),
        (∀ c, HotkeyEvent.pasteKey c ∉ it.events) →
        HotkeyEvent.skipPromptKey ∉ it.events →
        timeoutExpired tmo it.elapsed = true →
        (wait_for_user_paste_or_skip expected tmo s (it :: rest)).map Prod.fst =
          some false) := by
  refine ⟨?_, ?_, ?_, ?_⟩
  · intro iters s' h
    exact confLoop_true_paste tmo expected iters _ rfl rfl s' h
  · intro it rest hmem
    have hset : (applyEvents it.events
        { s with
          expectedClipboardText := some expected
          pasteEvent := false
          skipPromptEvent := false }).pasteEvent = true :=
      applyEvents_paste_set it.events _ expected hmem rfl
    simp [wait_for_user_paste_or_skip, confLoop, hset]
  · intro it rest hnopaste hskip
    have hp : (applyEvents it.events
        { s with
          expectedClipboardText := some expected
          pasteEvent := false
          skipPromptEvent := false }).pasteEvent = false := by
      cases hval : (applyEvents it.events _).pasteEvent
      · rfl
      · exfalso
        rcases applyEvents_paste_true it.events _ hval with h1 | ⟨c, hc, _⟩
        · cases h1
        · exact hnopaste c hc
    have hs : (applyEvents it.events
        { s with
          expectedClipboardText := some expected
          pasteEvent := false
          skipPromptEvent := false }).skipPromptEvent = true :=
      applyEvents_skipPrompt_set it.events _ hskip
    simp [wait_for_user_paste_or_skip, confLoop, hp, hs]
  · intro it rest hnopaste hnoskip htmo
    have hp : (applyEvents it.events
        { s with
          expectedClipboardText := some expected
          pasteEvent := false
          skipPromptEvent := false }).pasteEvent = false := by
      cases hval : (applyEvents it.events _).pasteEvent
      · rfl
      · exfalso
        rcases applyEvents_paste_true it.events _ hval with h1 | ⟨c, hc, _⟩
        · cases h1
        · exact hnopaste c hc
    have hs : (applyEvents it.events
        { s with
          expectedClipboardText := some expected
          pasteEvent := false
          skipPromptEvent := false }).skipPromptEvent = false := by
      cases hval : (applyEvents it.events _).skipPromptEvent
      · rfl
      · exfalso
        rcases applyEvents_skipPrompt_true it.events _ hval with h1 | h1
        · cases h1
        · exact hnoskip h1
    simp [wait_for_user_paste_or_skip, confLoop, hp, hs, htmo]

/-- Claim C2 witness: a matching paste firing at the first poll yields the
confirmed (`True`) return. -/
theorem c2_wait_confirmation_amended_witness :
    (wait_for_user_paste_or_skip "p" none initCoordState
        [⟨[HotkeyEvent.pasteKey "p"], 0⟩]).map Prod.fst = some true :=
  (c2_wait_confirmation_amended "p" none initCoordState).2.1
    ⟨[HotkeyEvent.pasteKey "p"], 0⟩ [] (by decide)

/-- Claim C7: coordinator state hygiene.  (i) Every exit of
`_wait_for_user_paste_or_skip` — confirmed, skipped or timed out — leaves
`_expected_clipboard_text` cleared to `None`; (ii) the confirmation wait
clears `_paste_event` and `_skip_prompt_event` on entry, so its whole outcome
is independent of those incoming flags and of any stale expected text;
(iii) the download wait clears `_skip_wait_download_event` on entry, so its
returned value is independent of the entire incoming flag state — a flag set
during one wait never carries over into a later wait. -/
theorem c7_state_hygiene :
    (∀ (expected : String) (tmo : Option Nat) (s : CoordState)
        (iters : List ConfIter) (r : Bool) (s' : CoordState),
        wait_for_user_paste_or_skip expected tmo s iters = some (r, s') →
        s'.expectedClipboardText = none) ∧
    (∀ (expected : String) (tmo : Option Nat) (s₁ s₂ : CoordState)
        (iters : List ConfIter),
        s₁.skipWaitDownloadEvent = s₂.skipWaitDownloadEvent →
        wait_for_user_paste_or_skip expected tmo s₁ iters =
          wait_for_user_paste_or_skip expected tmo s₂ iters) ∧
    (∀ (snap : List String) (tmo : Option Nat) (s₁ s₂ : CoordState)
        (iters : List DlIter),
        (wait_for_new_png_download snap tmo s₁ iters).map Prod.fst =
          (wait_for_new_png_download snap tmo s₂ iters).map Prod.fst) := by
  refine ⟨?_, ?_, ?_⟩
  · intro expected tmo s iters r s' h
    exact confLoop_exit_expected tmo iters _ r s' h
  · intro expected tmo s₁ s₂ iters h
    have hstates :
        ({ s₁ with
            expectedClipboardText := some expected
            pasteEvent := false
            skipPromptEvent := false } : CoordState) =
        { s₂ with
            expectedClipboardText := some expected
            pasteEvent := false
            skipPromptEvent := false } := by
      cases s₁
      cases s₂
      simp_all
    unfold wait_for_user_paste_or_skip
    rw [hstates]
  · intro snap tmo s₁ s₂ iters
    unfold wait_for_new_png_download
    exact dlLoop_fst_congr snap tmo iters _ _ rfl

/-- Claim C7 witness: a run of the confirmation wait that exits by skip has
`_expected_clipboard_text` cleared in the resulting state. -/
theorem c7_state_hygiene_witness :
    (⟨false, true, false, none⟩ : CoordState).expectedClipboardText = none :=
  c7_state_hygiene.1 "x" none initCoordState [⟨[HotkeyEvent.skipPromptKey], 0⟩]
    false ⟨false, true, false, none⟩ (by decide)

/-- Claim C3: every path returned by `_wait_for_new_png_download` has a
filename that ends in `.png` case-insensitively and is not a member of the
snapshot passed at wait start (events are built by the watcher handler, so
`filename` is the path's final component); failing events are skipped as
noise and never returned. -/
theorem c3_new_file_png_not_in_snapshot (snap : List String) (tmo : Option Nat)
    (s : CoordState) (iters : List DlIter)
    (hshape : ∀ it ∈ iters, ∀ e, it.poll = QueuePoll.item e →
      e.filename = e.path.name) :
    ∀ (p : FsPath) (s' : CoordState),
      wait_for_new_png_download snap tmo s iters = some (some p, s') →
      strEndsWith (strLower p.name) ".png" = true ∧ p.name ∉ snap := by
  intro p s' h
  exact dlLoop_ret_png snap tmo iters _ hshape p s' h

/-- Claim C3 witness: a stable fresh `.png` event is returned and satisfies
both filter conditions. -/
theorem c3_new_file_png_not_in_snapshot_witness :
    strEndsWith (strLower "fresh_logo.png") ".png" = true ∧
      "fresh_logo.png" ∉ ["old.png"] :=
  c3_new_file_png_not_in_snapshot ["old.png"] none initCoordState
    [⟨[], QueuePoll.item ⟨"fresh_logo.png", ⟨"fresh_logo.png", 3⟩⟩, [], false, true⟩]
    (by
      intro it hit e he
      rw [List.mem_singleton] at hit
      subst hit
      have he' : QueuePoll.item
          (⟨"fresh_logo.png", ⟨"fresh_logo.png", 3⟩⟩ : DownloadEvent) =
          QueuePoll.item e := he
      injection he' with he2
      rw [← he2])
    ⟨"fresh_logo.png", 3⟩ ⟨false, false, false, none⟩ (by decide)

/-- Claim C4: an accepted event whose filename is unstable (length `< 8` or
matching the short-alphanumeric temporary pattern) is not returned; instead
the directory is re-listed for `.png` entries absent from the snapshot, the
most recently modified candidate is taken, and it is returned exactly when
the readiness probe accepts it; with no candidate, or a non-ready candidate,
the outer loop continues without returning and without failing. -/
theorem c4_instability_heuristic (snap : List String) (tmo : Option Nat)
    (s : CoordState) (it : DlIter) (rest : List DlIter) (evt : DownloadEvent)
    (hpoll : it.poll = QueuePoll.item evt)
    (hskip : (applyEvents it.events s).skipWaitDownloadEvent = false)
    (hpng : strEndsWith (strLower evt.filename) ".png" = true)
    (hnew : evt.filename ∉ snap)
    (hunst : isUnstableName evt.filename = true) :
    (∀ latest,
        pyMaxByMtime ((globPng it.listing).filter (fun p => decide (p.name ∉ snap))) =
          some latest →
        dlLoop snap tmo s (it :: rest) =
          if it.readyLatest then some (some latest, applyEvents it.events s)
          else dlLoop snap tmo (applyEvents it.events s) rest) ∧
    (pyMaxByMtime ((globPng it.listing).filter (fun p => decide (p.name ∉ snap))) =
        none →
      dlLoop snap tmo s (it :: rest) =
        dlLoop snap tmo (applyEvents it.events s) rest) := by
  have hstep : dlStep snap tmo it (applyEvents it.events s) =
      dlStepUnstable it
        (pyMaxByMtime ((globPng it.listing).filter (fun p => decide (p.name ∉ snap)))) := by
    simp only [dlStep, hskip, Bool.false_eq_true, if_false]
    rw [hpoll]
    simp only [dlStepPoll]
    rw [if_neg (not_not_intro hpng), if_neg hnew, if_pos hunst]
  constructor
  · intro latest hmax
    cases h6 : it.readyLatest
    · have hstep2 : dlStep snap tmo it (applyEvents it.events s) = none := by
        rw [hstep, hmax]
        simp [dlStepUnstable, h6]
      simp [dlLoop, hstep2, h6]
    · have hstep2 : dlStep snap tmo it (applyEvents it.events s) =
          some (some latest) := by
        rw [hstep, hmax]
        simp [dlStepUnstable, h6]
      simp [dlLoop, hstep2, h6]
  · intro hmax
    have hstep2 : dlStep snap tmo it (applyEvents it.events s) = none := by
      rw [hstep, hmax]
      simp [dlStepUnstable]
    simp [dlLoop, hstep2]

/-- Claim C4 witness: the event `aB3dE9.png` (six alphanumerics plus the
extension, absent from the snapshot) triggers the heuristic; the re-listed
newest candidate `final.png` is returned since ready. -/
theorem c4_instability_heuristic_witness :
    dlLoop ["old.png"] none initCoordState
        [⟨[], QueuePoll.item ⟨"aB3dE9.png", ⟨"aB3dE9.png", 1⟩⟩,
          [⟨"final.png", 7⟩, ⟨"old.png", 2⟩], true, false⟩] =
      if (⟨[], QueuePoll.item ⟨"aB3dE9.png", ⟨"aB3dE9.png", 1⟩⟩,
          [⟨"final.png", 7⟩, ⟨"old.png", 2⟩], true, false⟩ : DlIter).readyLatest then
        some (some ⟨"final.png", 7⟩, applyEvents [] initCoordState)
      else dlLoop ["old.png"] none (applyEvents [] initCoordState) [] :=
  (c4_instability_heuristic ["old.png"] none initCoordState
      ⟨[], QueuePoll.item ⟨"aB3dE9.png", ⟨"aB3dE9.png", 1⟩⟩,
        [⟨"final.png", 7⟩, ⟨"old.png", 2⟩], true, false⟩ [] ⟨"aB3dE9.png", ⟨"aB3dE9.png", 1⟩⟩
      rfl (by decide) (by decide) (by decide) (by decide)).1
    ⟨"final.png", 7⟩ (by decide)

/-- Claim C6: `_wait_until_file_is_ready` returns not-ready immediately when
the path no longer exists, ready when the exclusive-read open succeeds, and
not-ready once a failed open is observed past `max_wait`; it catches
`PermissionError`/`OSError`, never raising for a missing or locked file; and
the download wait treats a not-ready file as "no file yet", continuing its
loop rather than failing. -/
theorem c6_readiness_probe (maxWait : Nat) :
    (∀ obs, wait_until_file_is_ready maxWait (ProbeObs.missing :: obs) = some false) ∧
    (∀ obs, wait_until_file_is_ready maxWait (ProbeObs.openOk :: obs) = some true) ∧
    (∀ obs, (∀ o ∈ obs, ∃ el, o = ProbeObs.openErr el) →
        (∃ el, ProbeObs.openErr el ∈ obs ∧ maxWait < el) →
        wait_until_file_is_ready maxWait obs = some false) ∧
    (∀ (snap : List String) (tmo : Option Nat) (s : CoordState) (it : DlIter)
        (rest : List DlIter) (evt : DownloadEvent),
        it.poll = QueuePoll.item evt →
        (applyEvents it.events s).skipWaitDownloadEvent = false →
        strEndsWith (strLower evt.filename) ".png" = true →
        evt.filename ∉ snap →
        isUnstableName evt.filename = false →
        it.readyDirect = false →
        dlLoop snap tmo s (it :: rest) =
          dlLoop snap tmo (applyEvents it.events s) rest) := by
  refine ⟨fun obs => rfl, fun obs => rfl, ?_, ?_⟩
  · intro obs
    induction obs with
    | nil =>
        intro _ hex
        rcases hex with ⟨el, hmem, _⟩
        cases hmem
    | cons o rest ih =>
        intro hall hex
        rcases hall o (List.mem_cons_self _ _) with ⟨el0, rfl⟩
        simp only [wait_until_file_is_ready]
        by_cases h2 : maxWait < el0
        · rw [if_pos h2]
        · rw [if_neg h2]
          apply ih (fun o' ho' => hall o' (List.mem_cons_of_mem _ ho'))
          rcases hex with ⟨el, hmem, hlt⟩
          rcases List.mem_cons.mp hmem with heq | hmem'
          · exfalso
            injection heq with h'
            omega
          · exact ⟨el, hmem', hlt⟩
  · intro snap tmo s it rest evt hpoll hskip hpng hnew hstable hready
    have hstep : dlStep snap tmo it (applyEvents it.events s) = none := by
      simp only [dlStep, hskip, Bool.false_eq_true, if_false]
      rw [hpoll]
      simp only [dlStepPoll]
      rw [if_neg (not_not_intro hpng), if_neg hnew,
        if_neg (by simp [hstable] : ¬ (isUnstableName evt.filename = true)),
        if_neg (by simp [hready] : ¬ (it.readyDirect = true))]
    simp [dlLoop, hstep]

/-- Claim C6 witness: a file whose opens keep failing, the last observed past
`max_wait`, yields not-ready. -/
theorem c6_readiness_probe_witness :
    wait_until_file_is_ready 50 [ProbeObs.openErr 10, ProbeObs.openErr 60] =
      some false :=
  (c6_readiness_probe 50).2.2.1 [ProbeObs.openErr 10, ProbeObs.openErr 60]
    (by
      intro o ho
      rcases List.mem_cons.mp ho with rfl | ho2
      · exact ⟨10, rfl⟩
      · rcases List.mem_cons.mp ho2 with rfl | ho3
        · exact ⟨60, rfl⟩
        · cases ho3)
    ⟨60, by decide, by decide⟩

/-- Claim C8: `_wait_for_new_png_download` returns `None` only when the
skip-download flag is observed set or a finite timeout has expired at a
queue-empty poll (so with no timeout and no skip firing, every return is a
file path); conversely a skip firing before the first poll, or an expired
timeout at a first queue-empty poll, does produce `None`. -/
theorem c8_none_iff_skip_or_timeout (snap : List String) (tmo : Option Nat)
    (s : CoordState) :
    (∀ (iters : List DlIter) (s' : CoordState),
        wait_for_new_png_download snap tmo s iters = some (none, s') →
        (∃ it ∈ iters, HotkeyEvent.skipDownloadKey ∈ it.events) ∨
        (∃ it ∈ iters, ∃ el, it.poll = QueuePoll.empty el ∧
          timeoutExpired tmo el = true)) ∧
    (∀ (iters : List DlIter), tmo = none →
        (∀ it ∈ iters, HotkeyEvent.skipDownloadKey ∉ it.events) →
        (wait_for_new_png_download snap tmo s iters).map Prod.fst ≠ some none) ∧
    (∀ (it : DlIter) (rest : List DlIter),
        HotkeyEvent.skipDownloadKey ∈ it.events →
        (wait_for_new_png_download snap tmo s (it :: rest)).map Prod.fst =
          some none) ∧
    (∀ (it : DlIter) (rest : List DlIter) (el : Nat),
        it.poll = QueuePoll.empty el → timeoutExpired tmo el = true →
        (wait_for_new_png_download snap tmo s (it :: rest)).map Prod.fst =
          some none) := by
  refine ⟨?_, ?_, ?_, ?_⟩
  · intro iters s' h
    exact dlLoop_none_cause snap tmo iters _ rfl s' h
  · intro iters htmo hno hcon
    have hex : ∃ s', wait_for_new_png_download snap tmo s iters = some (none, s') := by
      cases hw : wait_for_new_png_download snap tmo s iters with
      | none => rw [hw] at hcon; cases hcon
      | some pr =>
          rw [hw] at hcon
          simp at hcon
          exact ⟨pr.2, by rw [← hcon]⟩
    obtain ⟨s', hs'⟩ := hex
    rcases dlLoop_none_cause snap tmo iters _ rfl s' hs' with ⟨it, hit, hmem⟩ |
      ⟨it, hit, el, _, htm⟩
    · exact hno it hit hmem
    · rw [htmo] at htm
      cases htm
  · intro it rest hmem
    have hskip1 : (applyEvents it.events
        { s with skipWaitDownloadEvent := false }).skipWaitDownloadEvent = true := by
      rw [applyEvents_skipDownload_only]
      simp [hmem]
    have hstep : dlStep snap tmo it (applyEvents it.events
        { s with skipWaitDownloadEvent := false }) = some none := by
      simp [dlStep, hskip1]
    simp [wait_for_new_png_download, dlLoop, hstep]
  · intro it rest el hpoll htm
    cases hval : (applyEvents it.events
        { s with skipWaitDownloadEvent := false }).skipWaitDownloadEvent
    · have hstep : dlStep snap tmo it (applyEvents it.events
          { s with skipWaitDownloadEvent := false }) = some none := by
        simp only [dlStep, hval, Bool.false_eq_true, if_false]
        rw [hpoll]
        simp [dlStepPoll, htm]
      simp [wait_for_new_png_download, dlLoop, hstep]
    · have hstep : dlStep snap tmo it (applyEvents it.events
          { s with skipWaitDownloadEvent := false }) = some none := by
        simp [dlStep, hval]
      simp [wait_for_new_png_download, dlLoop, hstep]

/-- Claim C8 witness: with no timeout and no skip firing, an (unexpired)
queue-empty run never yields a `None` return. -/
theorem c8_none_iff_skip_or_timeout_witness :
    (wait_for_new_png_download ["a.png"] none initCoordState
        [⟨[], QueuePoll.empty 99, [], false, false⟩]).map Prod.fst ≠ some none :=
  (c8_none_iff_skip_or_timeout ["a.png"] none initCoordState).2.1
    [⟨[], QueuePoll.empty 99, [], false, false⟩] rfl (by decide)

end PagePFP
